import Mathlib

/-!
Shallow embedding of the chunked JSON flat-file query engine in
`src/services/json-database.service.ts` (class `JSONDatabaseService`).

Data values are strings, numbers or null/undefined (the two are collapsed
into one constructor; JS numbers are modelled as rationals).  Records are
association lists from field name to value; a missing key reads as `null`,
matching JS property access on a plain object.  The on-disk chunk store is
modelled as a total map from (table, chunk index) to a `ChunkFile`, which is
either readable (`ok`), a missing file (`absent`: `fs.existsSync` fails and
`readChunk` returns null) or an unparseable file (`corrupt`: `JSON.parse`
throws, the catch block returns null).  Methods that `throw` in the source
return `Except DBError`.
-/

namespace MAScreener

/-- A JS value as stored in the deal records: string, number, or
null/undefined (collapsed). -/
inductive Value where
  | str (s : String)
  | num (q : ℚ)
  | null
deriving DecidableEq, Repr

/-- A record is an association list field-name ↦ value (a plain JS object). -/
abbrev Record := List (String × Value)

/-- JS property access `item[field]`: a missing key yields undefined,
modelled as `Value.null`. -/
def getField (r : Record) (k : String) : Value :=
  match r.lookup k with
  | some v => v
  | none => Value.null

/-- JS truthiness of a value: null/undefined, 0 and "" are falsy. -/
def truthy : Value → Bool
  | Value.str s => !(s = "")
  | Value.num q => !(q = 0)
  | Value.null => false

/-- JS `a || b`. -/
def jsOr (a b : Value) : Value :=
  if truthy a then a else b

/-- `typeof v === 'number'`. -/
def isNum : Value → Bool
  | Value.num _ => true
  | _ => false

/-- JS strict equality `===` restricted to the value domain of this dataset. -/
def valueEq (a b : Value) : Bool :=
  decide (a = b)

/-- JS `<` on two values: numeric comparison on numbers, lexicographic on
strings.  Cross-type comparisons (which JS resolves by ToNumber coercion)
do not occur in this dataset and are modelled as false. -/
def jsLt : Value → Value → Bool
  | Value.num a, Value.num b => decide (a < b)
  | Value.str a, Value.str b => decide (a < b)
  | _, _ => false

/-- JS loose equality `==` as used by `getDealById`'s `d.id == id`
(string/number coercion: the string side is parsed as an integer). -/
def looseEq : Value → Value → Bool
  | Value.num a, Value.num b => decide (a = b)
  | Value.str a, Value.str b => decide (a = b)
  | Value.str s, Value.num n =>
      match s.toInt? with
      | some i => decide ((i : ℚ) = n)
      | none => false
  | Value.num n, Value.str s =>
      match s.toInt? with
      | some i => decide ((i : ℚ) = n)
      | none => false
  | Value.null, Value.null => true
  | _, _ => false

/-- JS `String(v)` on a filter comparison value (used only by `like`).
Rationals with denominator 1 print as integers, as JS does for them. -/
def jsToString : Value → String
  | Value.str s => s
  | Value.num q => if q.den = 1 then toString q.num else toString q
  | Value.null => "null"

/-- Does `hay` start with `needle` (on character lists)? -/
def listStartsWith : List Char → List Char → Bool
  | _, [] => true
  | [], _ :: _ => false
  | h :: hs, n :: ns => h = n && listStartsWith hs ns

/-- Does `hay` contain `needle` as a contiguous subsequence? -/
def listContainsSeq (needle : List Char) : List Char → Bool
  | [] => needle.isEmpty
  | h :: hs => listStartsWith (h :: hs) needle || listContainsSeq needle hs

/-- Substring containment, JS `a.includes(b)` on strings. -/
def containsSub (hay needle : String) : Bool :=
  listContainsSeq needle.toList hay.toList

/-- One field's entry in a filter specification: a literal (equality), an
array (membership / IN), or an operator map. -/
inductive FilterVal where
  | lit (v : Value)
  | arr (vs : List Value)
  | ops (m : List (String × Value))
deriving DecidableEq, Repr

/-- A filter specification: field name ↦ clause, all AND-ed. -/
abbrev Filter := List (String × FilterVal)

/-- One operator of an operator map, from the `switch (op)` in `filterData`:
ordering operators require both operands numeric, otherwise false; `like` is
case-insensitive substring containment on a string field; an unrecognized
operator falls to the `default: return true` branch. -/
def evalOp (op : String) (a v : Value) : Bool :=
  if op = "eq" then valueEq a v
  else if op = "ne" then !valueEq a v
  else if op = "gt" then
    (match a, v with
     | Value.num x, Value.num y => decide (y < x)
     | _, _ => false)
  else if op = "gte" then
    (match a, v with
     | Value.num x, Value.num y => decide (y ≤ x)
     | _, _ => false)
  else if op = "lt" then
    (match a, v with
     | Value.num x, Value.num y => decide (x < y)
     | _, _ => false)
  else if op = "lte" then
    (match a, v with
     | Value.num x, Value.num y => decide (x ≤ y)
     | _, _ => false)
  else if op = "like" then
    (match a with
     | Value.str s => containsSub s.toLower (jsToString v).toLower
     | _ => false)
  else true

/-- One field clause of the predicate evaluator (`filterData`'s callback body):
array → IN (empty array matches), object → AND of operator entries,
otherwise strict equality. -/
def evalClause (item : Record) : String × FilterVal → Bool
  | (field, FilterVal.arr vs) =>
      vs.isEmpty || vs.any (fun w => valueEq w (getField item field))
  | (field, FilterVal.ops m) =>
      m.all (fun e => evalOp e.1 (getField item field) e.2)
  | (field, FilterVal.lit v) =>
      valueEq (getField item field) v

/-- `filterData(data, filter)`: empty filter returns the data unchanged,
otherwise keep records on which every field clause holds. -/
def filterData (data : List Record) (filter : Filter) : List Record :=
  if filter.isEmpty then data
  else data.filter (fun item => filter.all (evalClause item))

/-- Sort direction, `'asc' | 'desc'`. -/
inductive Dir where
  | asc
  | desc
deriving DecidableEq, Repr

/-- `sort: {field, direction}` of the query options. -/
structure SortSpec where
  field : String
  direction : Dir
deriving DecidableEq, Repr

/-- The comparator passed to `results.sort` in `query`: null/undefined sorts
first ascending and last descending; otherwise JS `<` / `>` on the field. -/
def cmpRecords (s : SortSpec) (a b : Record) : Int :=
  let fieldA := getField a s.field
  let fieldB := getField b s.field
  if fieldA = Value.null then (if s.direction = Dir.asc then -1 else 1)
  else if fieldB = Value.null then (if s.direction = Dir.asc then 1 else -1)
  else if jsLt fieldA fieldB then (if s.direction = Dir.asc then -1 else 1)
  else if jsLt fieldB fieldA then (if s.direction = Dir.asc then 1 else -1)
  else 0

/-- Insert `x` into a list sorted by `cmp`, after all entries it does not
strictly precede (the placement a stable sort gives a later-arriving equal
element). -/
def insertCmp (cmp : Record → Record → Int) (x : Record) : List Record → List Record
  | [] => [x]
  | y :: ys => if cmp x y < 0 then x :: y :: ys else y :: insertCmp cmp x ys

/-- `Array.prototype.sort` with a comparator, modelled as a stable insertion
sort (ES2019 requires sort stability; for a consistent comparator the stable
result is unique). -/
def sortJS (cmp : Record → Record → Int) (l : List Record) : List Record :=
  l.foldl (fun acc x => insertCmp cmp x acc) []

/-- The on-disk state of one chunk file: readable, missing
(`fs.existsSync` false) or unparseable (`JSON.parse` throws). -/
inductive ChunkFile where
  | absent
  | corrupt
  | ok (records : List Record)
deriving DecidableEq, Repr

/-- `readChunk` on one chunk file: a readable file yields its records; a
missing file falls through to `return null`; an unparseable file throws
inside the `try`, and the catch block logs and returns null.  In both
failure cases the caller receives null — never an exception. -/
def readChunkF : ChunkFile → Option (List Record)
  | ChunkFile.ok records => some records
  | ChunkFile.absent => none
  | ChunkFile.corrupt => none

/-- Table metadata, from the `TableMetadata` interface (the extra index
signature fields are not modelled). -/
structure TableMetadata where
  name : String
  chunksCount : ℕ
  totalRows : ℕ
  columns : List String
deriving DecidableEq, Repr

/-- The engine state: the in-memory metadata map loaded at construction and
the file system, as a map (table, chunk index) ↦ chunk-file state.  The
two on-disk path conventions (`<table>/chunk_<i>.json` and the flat
`M&A Database_chunk_<i>.json` layout for table `deals`) are abstracted into
the single resolved mapping `store`. -/
structure DB where
  metadata : List (String × TableMetadata)
  store : String → ℕ → ChunkFile

/-- `this.metadata[tableName] || null`. -/
def lookupMeta (db : DB) (tbl : String) : Option TableMetadata :=
  db.metadata.lookup tbl

/-- `readChunk(tableName, chunkIndex)`. -/
def readChunk (db : DB) (tbl : String) (i : ℕ) : Option (List Record) :=
  readChunkF (db.store tbl i)

/-- Errors thrown by the service. -/
inductive DBError where
  | tableNotFound (tbl : String)
  | dealNotFound (id : Value)
deriving DecidableEq, Repr

/-- The chunk-accumulation loop of `getAllData`: chunks 0..n-1 in order, a
null chunk contributes nothing. -/
def allRecordsStore (store : ℕ → ChunkFile) (n : ℕ) : List Record :=
  (List.range n).foldl
    (fun acc i =>
      match readChunkF (store i) with
      | some chunkData => acc ++ chunkData
      | none => acc)
    []

/-- `getAllData(tableName)`: throws when the table is unknown, otherwise
concatenates all chunks in index order. -/
def getAllData (db : DB) (tbl : String) : Except DBError (List Record) :=
  match lookupMeta db tbl with
  | none => Except.error (DBError.tableNotFound tbl)
  | some md => Except.ok (allRecordsStore (db.store tbl) md.chunksCount)

/-- Query options.  `limit : Option ℕ` models the JS default `Infinity` as
`none`.  `sort : Option (Option SortSpec)` mirrors the destructuring default:
`none` is an absent key (defaulted to `{field:'id', direction:'asc'}`),
`some none` is an explicit `sort: null` (the `if (sort)` guard then skips
sorting), `some (some s)` is a caller-provided sort. -/
structure QueryOptions where
  filter : Filter := []
  limit : Option ℕ := none
  offset : ℕ := 0
  fields : List String := []
  sort : Option (Option SortSpec) := none
deriving DecidableEq, Repr

/-- Resolution of the `sort = { field: 'id', direction: 'asc' }` default. -/
def resolveSort : Option (Option SortSpec) → Option SortSpec
  | none => some ⟨"id", Dir.asc⟩
  | some s => s

/-- Query result `{data, total, offset, limit}`. -/
structure QueryResult where
  data : List Record
  total : ℕ
  offset : ℕ
  limit : Option ℕ
deriving DecidableEq, Repr

/-- `results.length >= limit` is false when limit is Infinity. -/
def limitReached (lim : Option ℕ) (len : ℕ) : Bool :=
  match lim with
  | none => false
  | some l => l ≤ len

/-- `Math.min(chunkToAdd.length, limit - results.length)`; with Infinity the
minimum is the chunk length. -/
def neededCount (lim : Option ℕ) (len clen : ℕ) : ℕ :=
  match lim with
  | none => clen
  | some l => min clen (l - len)

/-- `list.take  n` under an optional bound (Infinity takes everything). -/
def otake (lim : Option ℕ) (l : List Record) : List Record :=
  match lim with
  | none => l
  | some n => l.take n

/-- Optional subtraction: `Infinity - k = Infinity`. -/
def osub (lim : Option ℕ) (k : ℕ) : Option ℕ :=
  match lim with
  | none => none
  | some n => some (n - k)

/-- The chunk-processing loop of `query` (lines 217–241): the chunks appear
already read (`none` for a null read, which the loop skips with `continue`);
`skipped` and `results` are the loop state.  A chunk whose filtered records
all fall below `offset` is skipped whole; otherwise the still-needed part is
sliced out and appended, and the loop breaks once `results.length` reaches
the limit. -/
def collect (f : Filter) (lim : Option ℕ) (offset : ℕ) :
    List (Option (List Record)) → ℕ → List Record → List Record
  | [], _, results => results
  | c :: rest, skipped, results =>
    if limitReached lim results.length then results
    else
      match c with
      | none => collect f lim offset rest skipped results
      | some chunkData =>
        let filteredChunk := filterData chunkData f
        if skipped + filteredChunk.length ≤ offset then
          collect f lim offset rest (skipped + filteredChunk.length) results
        else
          let remainingToSkip := offset - skipped
          let chunkToAdd := filteredChunk.drop remainingToSkip
          let needed := neededCount lim results.length chunkToAdd.length
          collect f lim offset rest (skipped + remainingToSkip)
            (results ++ chunkToAdd.take needed)

/-- The field-projection step: build an object holding exactly the requested
fields the record itself carries (`hasOwnProperty` guard). -/
def projectRecord (fields : List String) (item : Record) : Record :=
  fields.filterMap (fun fld => (item.lookup fld).map (fun v => (fld, v)))

/-- The counting scan of `count` (lines 339–346): sum of filtered chunk
lengths over all chunks, null chunks contributing nothing. -/
def countScan (store : ℕ → ChunkFile) (n : ℕ) (f : Filter) : ℕ :=
  (List.range n).foldl
    (fun acc i =>
      match readChunkF (store i) with
      | some chunkData => acc + (filterData chunkData f).length
      | none => acc)
    0

/-- `count(tableName, filter)` after the metadata lookup succeeded: the O(1)
shortcut applies when the filter is empty and `totalRows` is truthy
(nonzero); otherwise every chunk is scanned. -/
def countCore (store : ℕ → ChunkFile) (md : TableMetadata) (f : Filter) : ℕ :=
  if f.isEmpty ∧ md.totalRows ≠ 0 then md.totalRows
  else countScan store md.chunksCount f

/-- `count(tableName, filter)`: throws on an unknown table. -/
def count (db : DB) (tbl : String) (f : Filter) : Except DBError ℕ :=
  match lookupMeta db tbl with
  | none => Except.error (DBError.tableNotFound tbl)
  | some md => Except.ok (countCore (db.store tbl) md f)

/-- `query(tableName, options)`: resolve metadata (throw NotFound when the
table is unknown), run the collection loop over chunks 0..chunksCount-1,
sort the collected page when the resolved sort is non-null, project fields
when requested, and pair the page with the full filtered count. -/
def query (db : DB) (tbl : String) (options : QueryOptions) :
    Except DBError QueryResult :=
  match lookupMeta db tbl with
  | none => Except.error (DBError.tableNotFound tbl)
  | some md =>
    let chunkReads := (List.range md.chunksCount).map (fun i => readChunk db tbl i)
    let collected := collect options.filter options.limit options.offset chunkReads 0 []
    let sorted :=
      match resolveSort options.sort with
      | some s => sortJS (cmpRecords s) collected
      | none => collected
    let projected :=
      if options.fields.isEmpty then sorted
      else sorted.map (projectRecord options.fields)
    Except.ok
      { data := projected
        total := countCore (db.store tbl) md options.filter
        offset := options.offset
        limit := options.limit }

/-- The chunk-search loop of `getDealById`: first chunk containing a record
whose `id` loosely equals the requested id wins; null chunks are skipped. -/
def findDealLoop (store : ℕ → ChunkFile) (id : Value) : List ℕ → Option Record
  | [] => none
  | i :: rest =>
    match readChunkF (store i) with
    | none => findDealLoop store id rest
    | some chunkData =>
      match chunkData.find? (fun d => looseEq (getField d "id") id) with
      | some deal => some deal
      | none => findDealLoop store id rest

/-- `transformDealToCamelCase(deal)`: the canonical camelCase output record,
preferring the snake_case source field when both are present (JS `||`). -/
def transformDealToCamelCase (deal : Record) : Record :=
  [ ("id", getField deal "id")
  , ("targetName", jsOr (getField deal "target_name") (getField deal "targetName"))
  , ("announcementDate", jsOr (getField deal "announcement_date") (getField deal "announcementDate"))
  , ("transactionType", jsOr (getField deal "transaction_type") (getField deal "transactionType"))
  , ("transactionStatus", jsOr (getField deal "transaction_status") (getField deal "transactionStatus"))
  , ("transactionValue", jsOr (getField deal "transaction_value") (getField deal "transactionValue"))
  , ("divestorName", jsOr (getField deal "divestor_name") (getField deal "divestorName"))
  , ("acquirerName", jsOr (getField deal "acquirer_name") (getField deal "acquirerName"))
  , ("targetRegion", jsOr (getField deal "target_region") (getField deal "targetRegion"))
  , ("targetDescription", jsOr (getField deal "target_description") (getField deal "targetDescription"))
  , ("evEbitdaMultiple", jsOr (getField deal "ev_ebitda_multiple") (getField deal "evEbitdaMultiple"))
  , ("evRevenueMultiple", jsOr (getField deal "ev_revenue_multiple") (getField deal "evRevenueMultiple"))
  , ("acquirerCountry", jsOr (getField deal "acquirer_country") (getField deal "acquirerCountry"))
  , ("targetIndustry1", jsOr (getField deal "target_industry_1") (getField deal "targetIndustry1"))
  , ("targetIndustry2", jsOr (getField deal "target_industry_2") (getField deal "targetIndustry2"))
  , ("dealSummary", jsOr (getField deal "deal_summary") (getField deal "dealSummary"))
  , ("transactionConsiderations", jsOr (getField deal "transaction_considerations") (getField deal "transactionConsiderations"))
  , ("targetEnterpriseValue", jsOr (getField deal "target_enterprise_value") (getField deal "targetEnterpriseValue"))
  , ("targetRevenue", jsOr (getField deal "target_revenue") (getField deal "targetRevenue"))
  , ("targetEbitda", jsOr (getField deal "target_ebitda") (getField deal "targetEbitda")) ]

/-- `getDealById(id)`: NotFound when the `deals` table is unknown; scan the
chunks for the first loosely-id-matching record and return it normalized;
throw NotFound when no chunk holds the id. -/
def getDealById (db : DB) (id : Value) : Except DBError Record :=
  match lookupMeta db "deals" with
  | none => Except.error (DBError.tableNotFound "deals")
  | some md =>
    match findDealLoop (db.store "deals") id (List.range md.chunksCount) with
    | some deal => Except.ok (transformDealToCamelCase deal)
    | none => Except.error (DBError.dealNotFound id)

/-- `deal.transaction_value || deal.transactionValue`. -/
def resolveTV (deal : Record) : Value :=
  jsOr (getField deal "transaction_value") (getField deal "transactionValue")

/-- `deal.transaction_status || deal.transactionStatus`. -/
def resolveStatus (deal : Record) : Value :=
  jsOr (getField deal "transaction_status") (getField deal "transactionStatus")

/-- The running accumulators of `getStatistics`. -/
structure StatState where
  totalDeals : ℕ
  totalValue : ℚ
  largestDeal : ℚ
  sumValues : ℚ
  valueCount : ℕ
  completedDeals : ℕ
  announcedDeals : ℕ
  pendingDeals : ℕ
deriving DecidableEq, Repr

/-- All accumulators start at zero. -/
def initStats : StatState :=
  ⟨0, 0, 0, 0, 0, 0, 0, 0⟩

/-- The transaction-value block of the per-deal loop:
`if (value && typeof value === 'number')` — a number is truthy exactly when
it is nonzero, so a 0 value is skipped by the truthiness guard. -/
def stepValue (s : StatState) (v : Value) : StatState :=
  match v with
  | Value.num q =>
    if q = 0 then s
    else
      { s with
        totalValue := s.totalValue + q
        sumValues := s.sumValues + q
        valueCount := s.valueCount + 1
        largestDeal := if s.largestDeal < q then q else s.largestDeal }
  | _ => s

/-- The status block of the per-deal loop. -/
def stepStatus (s : StatState) (v : Value) : StatState :=
  if truthy v then
    if valueEq v (Value.str "Completed") then
      { s with completedDeals := s.completedDeals + 1 }
    else if valueEq v (Value.str "Announced") then
      { s with announcedDeals := s.announcedDeals + 1 }
    else if valueEq v (Value.str "Pending") then
      { s with pendingDeals := s.pendingDeals + 1 }
    else s
  else s

/-- One iteration of `chunkData.forEach(deal => ...)`. -/
def stepDeal (s : StatState) (deal : Record) : StatState :=
  stepStatus (stepValue s (resolveTV deal)) (resolveStatus deal)

/-- One iteration of the chunk loop of `getStatistics`: a null chunk is
skipped; otherwise `totalDeals += chunkData.length` and every deal is
processed. -/
def stepChunk (s : StatState) (c : ChunkFile) : StatState :=
  match readChunkF c with
  | none => s
  | some chunkData =>
    chunkData.foldl stepDeal { s with totalDeals := s.totalDeals + chunkData.length }

/-- The object returned by `getStatistics`. -/
structure StatsResult where
  totalDeals : ℕ
  totalValue : ℚ
  avgDealSize : ℚ
  largestDeal : ℚ
  completedDeals : ℕ
  announcedDeals : ℕ
  pendingDeals : ℕ
deriving DecidableEq, Repr

/-- `getStatistics` over an already-resolved chunk sequence:
`avgDealSize = valueCount > 0 ? sumValues / valueCount : 0`. -/
def getStatisticsCore (chunks : List ChunkFile) : StatsResult :=
  let s := chunks.foldl stepChunk initStats
  { totalDeals := s.totalDeals
    totalValue := s.totalValue
    avgDealSize := if 0 < s.valueCount then s.sumValues / (s.valueCount : ℚ) else 0
    largestDeal := s.largestDeal
    completedDeals := s.completedDeals
    announcedDeals := s.announcedDeals
    pendingDeals := s.pendingDeals }

/-- `getStatistics()`: throws when the `deals` table is unknown, otherwise a
single pass over chunks 0..chunksCount-1. -/
def getStatistics (db : DB) : Except DBError StatsResult :=
  match lookupMeta db "deals" with
  | none => Except.error (DBError.tableNotFound "deals")
  | some md =>
    Except.ok (getStatisticsCore ((List.range md.chunksCount).map (db.store "deals")))

/-! ### Declarative companions used to state the claims -/

/-- The resolved transaction values the code's truthiness-plus-typeof guard
accepts: present, numeric and nonzero. -/
def extractTV (deal : Record) : Option ℚ :=
  match resolveTV deal with
  | Value.num q => if q = 0 then none else some q
  | _ => none

/-- Stated from the claim's words: the record's transaction value, read by
key presence (snake-style field preferred when present), with no
truthiness collapsing. -/
def claimTV (d : Record) : Option Value :=
  match d.lookup "transaction_value" with
  | some v => some v
  | none => d.lookup "transactionValue"

/-- Stated from the claim's words, for comparison with the code: the
*present numeric* transaction values of a record list (zero included). -/
def presentNumericValues (records : List Record) : List ℚ :=
  records.filterMap (fun d =>
    match claimTV d with
    | some (Value.num q) => some q
    | _ => none)

/-- Stated from the claim's words, for comparison with the code: sum of the
present numeric transaction values divided by their count. -/
def claimedAvgDealSize (records : List Record) : ℚ :=
  if 0 < (presentNumericValues records).length then
    (presentNumericValues records).sum / ((presentNumericValues records).length : ℚ)
  else 0

/-- The filtered chunk stream a query walks: per chunk, the records that
match the filter (a null chunk contributing nothing), concatenated in chunk
index order. -/
def filteredAll (store : ℕ → ChunkFile) (n : ℕ) (f : Filter) : List Record :=
  ((List.range n).map (fun i =>
    match readChunkF (store i) with
    | some d => filterData d f
    | none => [])).flatten

/-- Per-chunk filtered records of an already-read chunk sequence (the
`collect` loop's input shape). -/
def joinFiltered (f : Filter) (cs : List (Option (List Record))) : List Record :=
  (cs.map (fun c =>
    match c with
    | some d => filterData d f
    | none => [])).flatten

/-- The data page of a query result, empty on error. -/
def dataOf (e : Except DBError QueryResult) : List Record :=
  match e with
  | Except.ok r => r.data
  | Except.error _ => []

/-- The record list of a `getAllData` result, empty on error. -/
def recordsOf (e : Except DBError (List Record)) : List Record :=
  match e with
  | Except.ok rs => rs
  | Except.error _ => []

/-- All records of a chunk sequence, unreadable chunks contributing
nothing. -/
def chunkRecordsOf (chunks : List ChunkFile) : List Record :=
  (chunks.map (fun c => (readChunkF c).getD [])).flatten

/-! ### Concrete fixtures -/

/-- A record carrying only an id. -/
def recId (n : ℕ) : Record := [("id", Value.num (n : ℚ))]

/-- 51 records with ids 51, 50, …, 1 (descending). -/
def chunkDesc51 : List Record := (List.range 51).map (fun k => recId (51 - k))

/-- A one-chunk `deals` table holding the 51 descending-id records. -/
def dbDesc51 : DB :=
  ⟨[("deals", ⟨"deals", 1, 51, []⟩)],
   fun t i => if t = "deals" ∧ i = 0 then ChunkFile.ok chunkDesc51 else ChunkFile.absent⟩

/-- A table whose metadata claims 5 rows while its single chunk holds 1. -/
def dbStaleMeta : DB :=
  ⟨[("t", ⟨"t", 1, 5, []⟩)],
   fun t i => if t = "t" ∧ i = 0 then ChunkFile.ok [recId 1] else ChunkFile.absent⟩

/-- A consistent table: metadata says 2 rows, the chunk holds 2 records. -/
def dbTwoRows : DB :=
  ⟨[("t", ⟨"t", 1, 2, []⟩)],
   fun t i => if t = "t" ∧ i = 0 then ChunkFile.ok [recId 1, recId 2] else ChunkFile.absent⟩

/-- A database with no tables and no chunk files. -/
def dbEmpty : DB := ⟨[], fun _ _ => ChunkFile.absent⟩

/-- A one-deal `deals` table (id 1), for the unknown-id lookup. -/
def dbOneDeal : DB :=
  ⟨[("deals", ⟨"deals", 1, 1, []⟩)],
   fun t i => if t = "deals" ∧ i = 0 then ChunkFile.ok [recId 1] else ChunkFile.absent⟩

/-- Two deals with transaction values 10 and 0. -/
def dbValuesTenZero : DB :=
  ⟨[("deals", ⟨"deals", 1, 2, []⟩)],
   fun t i =>
     if t = "deals" ∧ i = 0 then
       ChunkFile.ok [[("transaction_value", Value.num 10)], [("transaction_value", Value.num 0)]]
     else ChunkFile.absent⟩

/-- The chunk of the claim's aggregation example: values 10, 20, null, 30. -/
def chunkExampleValues : ChunkFile :=
  ChunkFile.ok
    [ [("transaction_value", Value.num 10)]
    , [("transaction_value", Value.num 20)]
    , [("transaction_value", Value.null)]
    , [("transaction_value", Value.num 30)] ]

/-- Two records with ids 2 and 1, in that (unsorted) chunk order. -/
def dbIdsTwoOne : DB :=
  ⟨[("t", ⟨"t", 1, 2, []⟩)],
   fun t i => if t = "t" ∧ i = 0 then ChunkFile.ok [recId 2, recId 1] else ChunkFile.absent⟩

/-! ### Basic lemmas about the embedded operations -/

theorem filterData_nil (f : Filter) : filterData [] f = [] := by
  unfold filterData
  split <;> simp

theorem filterData_empty (data : List Record) : filterData data [] = data := rfl

theorem filterData_append (a b : List Record) (f : Filter) :
    filterData (a ++ b) f = filterData a f ++ filterData b f := by
  unfold filterData
  split <;> simp [List.filter_append]

theorem filterData_flatten (L : List (List Record)) (f : Filter) :
    filterData L.flatten f = (L.map (fun d => filterData d f)).flatten := by
  induction L with
  | nil => simp [filterData_nil]
  | cons a L ih => simp [filterData_append, ih]

theorem foldl_append_eq (g : ℕ → List Record) (l : List ℕ) :
    ∀ acc : List Record,
      l.foldl (fun acc i => acc ++ g i) acc = acc ++ (l.map g).flatten := by
  induction l with
  | nil => simp
  | cons i l ih => intro acc; simp [ih]

theorem foldl_add_eq (g : ℕ → ℕ) (l : List ℕ) :
    ∀ acc : ℕ, l.foldl (fun acc i => acc + g i) acc = acc + (l.map g).sum := by
  induction l with
  | nil => simp
  | cons i l ih => intro acc; simp [ih]; omega

theorem allRecordsStore_eq (store : ℕ → ChunkFile) (n : ℕ) :
    allRecordsStore store n =
      ((List.range n).map (fun i => (readChunkF (store i)).getD [])).flatten := by
  unfold allRecordsStore
  have h : (fun (acc : List Record) (i : ℕ) =>
      match readChunkF (store i) with
      | some chunkData => acc ++ chunkData
      | none => acc) = fun acc i => acc ++ (readChunkF (store i)).getD [] := by
    funext acc i
    cases readChunkF (store i) <;> simp
  rw [h, foldl_append_eq]
  simp

theorem countScan_eq (store : ℕ → ChunkFile) (n : ℕ) (f : Filter) :
    countScan store n f = (filterData (allRecordsStore store n) f).length := by
  unfold countScan
  have h : (fun (acc : ℕ) (i : ℕ) =>
      match readChunkF (store i) with
      | some chunkData => acc + (filterData chunkData f).length
      | none => acc) =
      fun acc i => acc + (filterData ((readChunkF (store i)).getD []) f).length := by
    funext acc i
    cases readChunkF (store i) <;> simp [filterData_nil]
  rw [h, foldl_add_eq, allRecordsStore_eq, filterData_flatten]
  simp [List.length_flatten, List.map_map, Function.comp_def]

theorem otake_nil (lim : Option ℕ) : otake lim [] = [] := by
  cases lim <;> simp [otake]

theorem osub_zero (lim : Option ℕ) : osub lim 0 = lim := by
  cases lim <;> simp [osub]

/-- The collection loop of `query` slices the filtered chunk stream: starting
from state `(skipped, results)` with `skipped ≤ offset`, it extends `results`
with the still-needed part of the remaining stream. -/
theorem collect_go (f : Filter) (lim : Option ℕ) (offset : ℕ) :
    ∀ (cs : List (Option (List Record))) (skipped : ℕ) (results : List Record),
      skipped ≤ offset →
      collect f lim offset cs skipped results =
        results ++ otake (osub lim results.length)
          ((joinFiltered f cs).drop (offset - skipped)) := by
  intro cs
  induction cs with
  | nil =>
    intro skipped results _
    simp [collect, joinFiltered, otake_nil]
  | cons c rest ih =>
    intro skipped results hsk
    by_cases hb : limitReached lim results.length
    · cases lim with
      | none => simp [limitReached] at hb
      | some l =>
        simp only [limitReached, decide_eq_true_eq] at hb
        simp [collect, limitReached, hb, osub, Nat.sub_eq_zero_of_le hb, otake]
    · cases c with
      | none =>
        have h1 : joinFiltered f (none :: rest) = joinFiltered f rest := by
          simp [joinFiltered]
        rw [show collect f lim offset (none :: rest) skipped results =
              collect f lim offset rest skipped results by
            simp [collect, hb], h1]
        exact ih skipped results hsk
      | some d =>
        by_cases hskip : skipped + (filterData d f).length ≤ offset
        · rw [show collect f lim offset (some d :: rest) skipped results =
                collect f lim offset rest (skipped + (filterData d f).length) results by
              simp [collect, hb, hskip]]
          rw [ih _ results (le_trans hskip (le_refl _))]
          have h2 : (joinFiltered f (some d :: rest)).drop (offset - skipped) =
              (joinFiltered f rest).drop (offset - (skipped + (filterData d f).length)) := by
            have hjf : joinFiltered f (some d :: rest) =
                filterData d f ++ joinFiltered f rest := by
              simp [joinFiltered]
            rw [hjf, List.drop_append_eq_append_drop]
            have hlen : (filterData d f).length ≤ offset - skipped := by omega
            rw [List.drop_eq_nil_of_le hlen]
            simp only [List.nil_append]
            congr 1
            omega
          rw [h2]
        · rw [show collect f lim offset (some d :: rest) skipped results =
                collect f lim offset rest (skipped + (offset - skipped))
                  (results ++
                    ((filterData d f).drop (offset - skipped)).take
                      (neededCount lim results.length
                        ((filterData d f).drop (offset - skipped)).length)) by
              simp [collect, hb, hskip]]
          have hoff : skipped + (offset - skipped) = offset := by omega
          rw [hoff, ih offset _ (le_refl _)]
          have hjf : joinFiltered f (some d :: rest) =
              filterData d f ++ joinFiltered f rest := by
            simp [joinFiltered]
          have hdrop : (joinFiltered f (some d :: rest)).drop (offset - skipped) =
              (filterData d f).drop (offset - skipped) ++ joinFiltered f rest := by
            rw [hjf, List.drop_append_eq_append_drop]
            have : offset - skipped - (filterData d f).length = 0 := by omega
            rw [this]
            simp
          rw [hdrop, Nat.sub_self]
          simp only [List.drop_zero]
          cases lim with
          | none =>
            simp [neededCount, otake, osub, List.take_length]
          | some l =>
            simp only [limitReached, decide_eq_true_eq, not_le] at hb
            simp only [neededCount, otake, osub]
            have htake : ((filterData d f).drop (offset - skipped)).take
                (min ((filterData d f).drop (offset - skipped)).length (l - results.length)) =
                ((filterData d f).drop (offset - skipped)).take (l - results.length) := by
              rw [Nat.min_comm, ← List.take_take, List.take_length]
            rw [htake, List.take_append_eq_append_take, List.length_append,
              List.length_take]
            have harith : l - (results.length +
                min (l - results.length) ((filterData d f).drop (offset - skipped)).length) =
                l - results.length - ((filterData d f).drop (offset - skipped)).length := by
              omega
            rw [harith, List.append_assoc]

/-- The collected page, from the initial state, is `take limit` of
`drop offset` of the filtered chunk stream. -/
theorem collect_spec (f : Filter) (lim : Option ℕ) (offset : ℕ)
    (cs : List (Option (List Record))) :
    collect f lim offset cs 0 [] = otake lim ((joinFiltered f cs).drop offset) := by
  rw [collect_go f lim offset cs 0 [] (Nat.zero_le _)]
  simp [osub_zero]

/-- The chunk stream a query over `db`/`tbl` reads, expressed through
`filteredAll`. -/
theorem joinFiltered_range (db : DB) (tbl : String) (n : ℕ) (f : Filter) :
    joinFiltered f ((List.range n).map (fun i => readChunk db tbl i)) =
      filteredAll (db.store tbl) n f := by
  simp [joinFiltered, filteredAll, readChunk, List.map_map, Function.comp_def]

theorem stepStatus_sumValues (s : StatState) (v : Value) :
    (stepStatus s v).sumValues = s.sumValues := by
  unfold stepStatus
  split_ifs <;> rfl

theorem stepStatus_valueCount (s : StatState) (v : Value) :
    (stepStatus s v).valueCount = s.valueCount := by
  unfold stepStatus
  split_ifs <;> rfl

theorem stepDeal_sumValues (s : StatState) (d : Record) :
    (stepDeal s d).sumValues = s.sumValues + (extractTV d).getD 0 := by
  unfold stepDeal extractTV
  rw [stepStatus_sumValues]
  unfold stepValue
  cases resolveTV d with
  | num q =>
    by_cases hq : q = 0 <;> simp [hq]
  | str s => simp
  | null => simp

theorem stepDeal_valueCount (s : StatState) (d : Record) :
    (stepDeal s d).valueCount =
      s.valueCount + (if (extractTV d).isSome then 1 else 0) := by
  unfold stepDeal extractTV
  rw [stepStatus_valueCount]
  unfold stepValue
  cases resolveTV d with
  | num q =>
    by_cases hq : q = 0 <;> simp [hq]
  | str s => simp
  | null => simp

theorem foldl_stepDeal_sumValues (rs : List Record) :
    ∀ s : StatState,
      (rs.foldl stepDeal s).sumValues = s.sumValues + (rs.filterMap extractTV).sum := by
  induction rs with
  | nil => intro s; simp
  | cons d rs ih =>
    intro s
    rw [List.foldl_cons, ih, stepDeal_sumValues]
    cases h : extractTV d <;> simp [h, add_assoc]

theorem foldl_stepDeal_valueCount (rs : List Record) :
    ∀ s : StatState,
      (rs.foldl stepDeal s).valueCount = s.valueCount + (rs.filterMap extractTV).length := by
  induction rs with
  | nil => intro s; simp
  | cons d rs ih =>
    intro s
    rw [List.foldl_cons, ih, stepDeal_valueCount]
    cases h : extractTV d <;> simp [h, add_assoc, Nat.add_comm]

theorem stepChunk_sumValues (s : StatState) (c : ChunkFile) :
    (stepChunk s c).sumValues =
      s.sumValues + (((readChunkF c).getD []).filterMap extractTV).sum := by
  unfold stepChunk
  cases hc : readChunkF c with
  | none => simp
  | some d => simp [foldl_stepDeal_sumValues]

theorem stepChunk_valueCount (s : StatState) (c : ChunkFile) :
    (stepChunk s c).valueCount =
      s.valueCount + (((readChunkF c).getD []).filterMap extractTV).length := by
  unfold stepChunk
  cases hc : readChunkF c with
  | none => simp
  | some d => simp [foldl_stepDeal_valueCount]

theorem foldl_stepChunk_sumValues (chunks : List ChunkFile) :
    ∀ s : StatState,
      (chunks.foldl stepChunk s).sumValues =
        s.sumValues + ((chunkRecordsOf chunks).filterMap extractTV).sum := by
  induction chunks with
  | nil => intro s; simp [chunkRecordsOf]
  | cons c chunks ih =>
    intro s
    rw [List.foldl_cons, ih, stepChunk_sumValues]
    simp [chunkRecordsOf, List.filterMap_append]
    ring

theorem foldl_stepChunk_valueCount (chunks : List ChunkFile) :
    ∀ s : StatState,
      (chunks.foldl stepChunk s).valueCount =
        s.valueCount + ((chunkRecordsOf chunks).filterMap extractTV).length := by
  induction chunks with
  | nil => intro s; simp [chunkRecordsOf]
  | cons c chunks ih =>
    intro s
    rw [List.foldl_cons, ih, stepChunk_valueCount]
    simp [chunkRecordsOf, List.filterMap_append]
    omega

theorem findDealLoop_none (store : ℕ → ChunkFile) (id : Value) (l : List ℕ)
    (h : ∀ i ∈ l, ∀ r ∈ (readChunkF (store i)).getD [],
      looseEq (getField r "id") id = false) :
    findDealLoop store id l = none := by
  induction l with
  | nil => rfl
  | cons i rest ih =>
    unfold findDealLoop
    cases hc : readChunkF (store i) with
    | none => exact ih (fun j hj => h j (List.mem_cons_of_mem i hj))
    | some d =>
      have hfind : d.find? (fun r => looseEq (getField r "id") id) = none := by
        rw [List.find?_eq_none]
        intro r hr
        have := h i (List.mem_cons_self i rest) r (by rw [hc]; exact hr)
        simp [this]
      simp only [hfind]
      exact ih (fun j hj => h j (List.mem_cons_of_mem i hj))

/-- `countCore` agrees with a brute-force count over the concatenated chunks,
provided the metadata row count (when the empty-filter shortcut applies) is
honest about the chunks' contents. -/
theorem countCore_eq (store : ℕ → ChunkFile) (md : TableMetadata) (f : Filter)
    (hmeta : f = [] → md.totalRows = 0 ∨
      md.totalRows = (allRecordsStore store md.chunksCount).length) :
    countCore store md f =
      (filterData (allRecordsStore store md.chunksCount) f).length := by
  unfold countCore
  split
  case isTrue hc =>
    obtain ⟨hf, hnz⟩ := hc
    have hfe : f = [] := List.isEmpty_iff.mp hf
    rcases hmeta hfe with h0 | hlen
    · exact absurd h0 hnz
    · rw [hlen, hfe, filterData_empty]
  case isFalse =>
    exact countScan_eq store md.chunksCount f

/-- The imperative average accumulation of `getStatisticsCore`, expressed
declaratively: sum over the accepted (present, numeric, nonzero) values
divided by their count. -/
theorem statsCore_avg_eq (chunks : List ChunkFile) :
    (getStatisticsCore chunks).avgDealSize =
      (if 0 < ((chunkRecordsOf chunks).filterMap extractTV).length then
        ((chunkRecordsOf chunks).filterMap extractTV).sum /
          (((chunkRecordsOf chunks).filterMap extractTV).length : ℚ)
      else 0) := by
  show (if 0 < (chunks.foldl stepChunk initStats).valueCount then
      (chunks.foldl stepChunk initStats).sumValues /
        ((chunks.foldl stepChunk initStats).valueCount : ℚ)
    else 0) = _
  rw [foldl_stepChunk_sumValues, foldl_stepChunk_valueCount]
  simp [initStats]

/-! ### Claim theorems -/

/-- C3: a membership (IN) clause whose literal set is empty evaluates to a
match for every record and every field: filtering any record list with
`{field: []}` returns the list unchanged. -/
theorem c3_empty_membership_matches_all (data : List Record) (field : String) :
    filterData data [(field, FilterVal.arr [])] = data := by
  unfold filterData
  simp [evalClause]

/-- C4: an ordering-operator clause (gt, gte, lt, lte) in which either the
record's field value or the comparison value is not numeric (for example an
ISO date string) evaluates to non-match — the evaluator is a total function,
so no error is raised. -/
theorem c4_nonnumeric_ordering_is_no_match (item : Record) (fld : String)
    (m : List (String × Value)) (op : String) (v : Value)
    (hmem : (op, v) ∈ m)
    (hop : op = "gt" ∨ op = "gte" ∨ op = "lt" ∨ op = "lte")
    (hnn : isNum (getField item fld) = false ∨ isNum v = false) :
    evalClause item (fld, FilterVal.ops m) = false := by
  have hfalse : evalOp op (getField item fld) v = false := by
    rcases hop with rfl | rfl | rfl | rfl <;>
      cases hx : getField item fld <;> cases hv : v <;>
      simp_all [evalOp, isNum]
  have : ∃ e ∈ m, ¬(evalOp e.1 (getField item fld) e.2 = true) := by
    exact ⟨(op, v), hmem, by simp [hfalse]⟩
  simp only [evalClause]
  rw [List.all_eq_false]
  simpa using this

/-- C4 witness: a `gte` comparison of an ISO date field against an ISO date
string (the shape `getDeals` produces for startDate/endDate) is a
non-match. -/
theorem c4_witness :
    evalClause [("announcementDate", Value.str "2020-03-15")]
      ("announcementDate", FilterVal.ops [("gte", Value.str "2020-01-01")]) = false :=
  c4_nonnumeric_ordering_is_no_match _ _ _ "gte" (Value.str "2020-01-01")
    (by decide) (Or.inr (Or.inl rfl)) (Or.inl (by decide))

/-- C8: the record schema adapter is idempotent — normalizing a normalized
record changes nothing, because the canonical output carries no snake_case
keys and JS `undefined || v` is `v`. -/
theorem c8_transform_idempotent (deal : Record) :
    transformDealToCamelCase (transformDealToCamelCase deal) =
      transformDealToCamelCase deal := by
  rfl

/-- C10: an operator-map clause whose operator key is not one of
eq/ne/gt/gte/lt/lte/like falls into the switch's default branch and imposes
no constraint: filtering with it returns the record list unchanged. -/
theorem c10_unknown_operator_matches_all (data : List Record) (fld op : String)
    (v : Value)
    (h : op ∉ (["eq", "ne", "gt", "gte", "lt", "lte", "like"] : List String)) :
    filterData data [(fld, FilterVal.ops [(op, v)])] = data := by
  simp only [List.mem_cons, List.not_mem_nil, or_false, not_or] at h
  obtain ⟨h1, h2, h3, h4, h5, h6, h7⟩ := h
  unfold filterData
  simp [evalClause, evalOp, h1, h2, h3, h4, h5, h6, h7]

/-- C10 witness: a misspelled operator (`liek`) silently matches, leaving the
data unchanged. -/
theorem c10_witness :
    filterData [recId 1] [("transactionValue", FilterVal.ops [("liek", Value.num 3)])] =
      [recId 1] :=
  c10_unknown_operator_matches_all [recId 1] "transactionValue" "liek"
    (Value.num 3) (by decide)

/-- C5 counterexample: `readChunk` on a missing chunk file does not return an
empty record sequence — it returns null (`none`), which is a different value
(the callers distinguish them with `if (!chunkData)`). -/
theorem c5_cex_missing_chunk_is_null_not_empty :
    readChunk dbEmpty "t" 0 ≠ some ([] : List Record) := by
  decide

/-- C5 (amended): `readChunk` on a missing or unparseable chunk file returns
null rather than raising (the embedded read is a total function into
`Option`); every scanning caller skips a null chunk, so a full scan returns
exactly the records of every chunk other than the damaged index k, and a
query collection over a stream with chunk k corrupt behaves exactly as if
chunk k were empty. -/
theorem c5_damaged_chunk_fails_soft :
    (readChunkF ChunkFile.absent = none ∧ readChunkF ChunkFile.corrupt = none) ∧
    (∀ (store : ℕ → ChunkFile) (n k : ℕ),
      allRecordsStore (Function.update store k ChunkFile.corrupt) n =
        ((List.range n).map
          (fun i => if i = k then [] else (readChunkF (store i)).getD [])).flatten) ∧
    (∀ (f : Filter) (lim : Option ℕ) (o : ℕ) (store : ℕ → ChunkFile) (n k : ℕ),
      collect f lim o ((List.range n).map
          (fun i => readChunkF (Function.update store k ChunkFile.corrupt i))) 0 [] =
        collect f lim o ((List.range n).map
          (fun i => readChunkF (Function.update store k (ChunkFile.ok []) i))) 0 []) := by
  refine ⟨⟨rfl, rfl⟩, ?_, ?_⟩
  · intro store n k
    rw [allRecordsStore_eq]
    congr 1
    apply List.map_congr_left
    intro i _
    by_cases hik : i = k <;> simp [Function.update_apply, hik, readChunkF]
  · intro f lim o store n k
    have hjf : joinFiltered f ((List.range n).map
          (fun i => readChunkF (Function.update store k ChunkFile.corrupt i))) =
        joinFiltered f ((List.range n).map
          (fun i => readChunkF (Function.update store k (ChunkFile.ok []) i))) := by
      unfold joinFiltered
      rw [List.map_map, List.map_map]
      congr 1
      apply List.map_congr_left
      intro i _
      by_cases hik : i = k <;>
        simp [Function.comp_def, Function.update_apply, hik, readChunkF, filterData_nil]
    rw [collect_spec, collect_spec, hjf]

/-- C6: querying a table name absent from the loaded metadata throws the
distinguishable table-NotFound error (never an empty success result), and
`getDealById` on an id no record loosely matches throws the deal-NotFound
error rather than returning a value. -/
theorem c6_notfound_signalled :
    (∀ (db : DB) (tbl : String) (opts : QueryOptions),
        lookupMeta db tbl = none →
        query db tbl opts = Except.error (DBError.tableNotFound tbl)) ∧
    (∀ (db : DB) (md : TableMetadata) (id : Value),
        lookupMeta db "deals" = some md →
        (∀ r ∈ recordsOf (getAllData db "deals"),
          looseEq (getField r "id") id = false) →
        getDealById db id = Except.error (DBError.dealNotFound id)) := by
  constructor
  · intro db tbl opts h
    unfold query
    rw [h]
  · intro db md id h hno
    have hall : recordsOf (getAllData db "deals") =
        allRecordsStore (db.store "deals") md.chunksCount := by
      unfold getAllData recordsOf
      rw [h]
    unfold getDealById
    rw [h]
    have hloop : findDealLoop (db.store "deals") id (List.range md.chunksCount) = none := by
      apply findDealLoop_none
      intro i hi r hr
      apply hno
      rw [hall, allRecordsStore_eq]
      exact List.mem_flatten.mpr
        ⟨(readChunkF (db.store "deals" i)).getD [],
         List.mem_map.mpr ⟨i, hi, rfl⟩, hr⟩
    simp [hloop]

/-- C6 witness: an unknown table name and an unknown deal id both surface as
errors, at concrete inputs. -/
theorem c6_witness :
    query dbEmpty "nonexistent" {} =
      Except.error (DBError.tableNotFound "nonexistent") ∧
    getDealById dbOneDeal (Value.num 2) =
      Except.error (DBError.dealNotFound (Value.num 2)) :=
  ⟨c6_notfound_signalled.1 dbEmpty "nonexistent" {} rfl,
   c6_notfound_signalled.2 dbOneDeal ⟨"deals", 1, 1, []⟩ (Value.num 2)
     (by decide) (by decide)⟩

/-- C1: the pagination-concatenation property fails on the code.  With the
`deals` table holding one chunk of 51 records with ids 51,50,…,1, an empty
filter and the fixed default sort, the code sorts only the collected page
after slicing it out of the chunk stream: the first page is records 51..2
sorted to 2..51 and the second page is [1], so the concatenation starts with
id 2 while the single limit-100 query starts with id 1. -/
theorem c1_pagination_concat_fails :
    dataOf (query dbDesc51 "deals" {limit := some 50}) ++
        dataOf (query dbDesc51 "deals" {limit := some 50, offset := 50}) ≠
      dataOf (query dbDesc51 "deals" {limit := some 100}) := by
  decide

/-- C9 counterexample: with no sort specification in the options, the page
does not preserve the original chunk-stream order — the destructuring default
`{field: 'id', direction: 'asc'}` reorders a chunk stored as ids [2, 1]. -/
theorem c9_cex_default_sort_reorders :
    dataOf (query dbIdsTwoOne "t" {}) ≠ [recId 2, recId 1] := by
  decide

/-- C9 (amended): when the options carry no sort specification, `query` sorts
the collected page by the default `{field: 'id', direction: 'asc'}`: the
returned page is the stable id-ascending sort of the `take limit` of the
`drop offset` of the filtered chunk stream, not that stream slice itself. -/
theorem c9_no_sort_option_gives_default_id_sort (db : DB) (tbl : String)
    (md : TableMetadata) (f : Filter) (L o : ℕ)
    (h : lookupMeta db tbl = some md) :
    query db tbl ⟨f, some L, o, [], none⟩ =
      Except.ok
        ⟨sortJS (cmpRecords ⟨"id", Dir.asc⟩)
            (((filteredAll (db.store tbl) md.chunksCount f).drop o).take L),
         countCore (db.store tbl) md f, o, some L⟩ := by
  unfold query
  rw [h]
  simp only [resolveSort, collect_spec, joinFiltered_range, otake, List.isEmpty_nil]
  rfl

/-- C9 witness: the amended statement at the concrete two-record table. -/
theorem c9_witness :
    query dbIdsTwoOne "t" ⟨[], some 5, 0, [], none⟩ =
      Except.ok
        ⟨sortJS (cmpRecords ⟨"id", Dir.asc⟩)
            (((filteredAll (dbIdsTwoOne.store "t") 1 []).drop 0).take 5),
         countCore (dbIdsTwoOne.store "t") ⟨"t", 1, 2, []⟩ [], 0, some 5⟩ :=
  c9_no_sort_option_gives_default_id_sort dbIdsTwoOne "t" ⟨"t", 1, 2, []⟩ [] 5 0 rfl

/-- C2 counterexample: with metadata whose `totalRows` (5) disagrees with the
actual chunk contents (1 record), the empty-filter O(1) shortcut makes
`query(..).total` differ from the brute-force count over `getAllData`. -/
theorem c2_cex_stale_metadata :
    (query dbStaleMeta "t" ⟨[], none, 0, [], none⟩).toOption.map QueryResult.total ≠
      some ((filterData (recordsOf (getAllData dbStaleMeta "t")) []).length) := by
  decide

/-- C2 (amended): `query(..).total` equals the brute-force count of records
in `getAllData` matching the filter, provided that whenever the filter is
empty the metadata `totalRows` is either 0 (shortcut disabled by the
truthiness guard) or honest about the actual record count; for a nonempty
filter the equality holds unconditionally. -/
theorem c2_total_matches_brute_force (db : DB) (tbl : String) (md : TableMetadata)
    (f : Filter) (h : lookupMeta db tbl = some md)
    (hmeta : f = [] → md.totalRows = 0 ∨
      md.totalRows = (recordsOf (getAllData db tbl)).length) :
    (query db tbl ⟨f, none, 0, [], none⟩).toOption.map QueryResult.total =
      some ((filterData (recordsOf (getAllData db tbl)) f).length) := by
  have hall : recordsOf (getAllData db tbl) =
      allRecordsStore (db.store tbl) md.chunksCount := by
    unfold getAllData recordsOf
    rw [h]
  rw [hall] at hmeta ⊢
  unfold query
  rw [h]
  show some (countCore (db.store tbl) md f) = _
  rw [countCore_eq (db.store tbl) md f hmeta]

/-- C2 witness: on a table whose metadata row count matches its chunk
contents, the total of an unbounded empty-filter query equals the brute-force
count. -/
theorem c2_witness :
    (query dbTwoRows "t" ⟨[], none, 0, [], none⟩).toOption.map QueryResult.total =
      some ((filterData (recordsOf (getAllData dbTwoRows "t")) []).length) :=
  c2_total_matches_brute_force dbTwoRows "t" ⟨"t", 1, 2, []⟩ [] (by decide)
    (fun _ => Or.inr (by decide))

/-- C7 counterexample: a present, numeric transaction value 0 is skipped by
the code's truthiness guard, so `avgDealSize` over values [10, 0] is 10,
not the claim's (10+0)/2 = 5. -/
theorem c7_cex_zero_value_excluded :
    (getStatistics dbValuesTenZero).toOption.map StatsResult.avgDealSize ≠
      some (claimedAvgDealSize (recordsOf (getAllData dbValuesTenZero "deals"))) := by
  have hstat : (getStatistics dbValuesTenZero).toOption.map StatsResult.avgDealSize =
      some ((getStatisticsCore
        ((List.range 1).map (dbValuesTenZero.store "deals"))).avgDealSize) := rfl
  rw [hstat, statsCore_avg_eq]
  have hv : ((chunkRecordsOf
      ((List.range 1).map (dbValuesTenZero.store "deals"))).filterMap extractTV) =
      [(10 : ℚ)] := by decide
  rw [hv]
  have hp : presentNumericValues (recordsOf (getAllData dbValuesTenZero "deals")) =
      [(10 : ℚ), 0] := by decide
  unfold claimedAvgDealSize
  rw [hp]
  norm_num

/-- C7 (amended): `getStatistics` computes `avgDealSize` as the sum of the
transaction values that are present, numeric AND nonzero, divided by the
count of those values only — absent and non-numeric values are skipped as the
claim states, but a present numeric 0 is also skipped by the truthiness
guard `if (value && ...)`; the claim's example [10, 20, null, 30] still
averages to 20. -/
theorem c7_avg_counts_nonzero_numeric_only :
    (∀ chunks : List ChunkFile,
        (getStatisticsCore chunks).avgDealSize =
          (if 0 < ((chunkRecordsOf chunks).filterMap extractTV).length then
            ((chunkRecordsOf chunks).filterMap extractTV).sum /
              (((chunkRecordsOf chunks).filterMap extractTV).length : ℚ)
          else 0)) ∧
    (getStatisticsCore [chunkExampleValues]).avgDealSize = 20 := by
  refine ⟨statsCore_avg_eq, ?_⟩
  rw [statsCore_avg_eq]
  have hv : (chunkRecordsOf [chunkExampleValues]).filterMap extractTV =
      [(10 : ℚ), 20, 30] := by decide
  rw [hv]
  norm_num

end MAScreener
